import Mathlib

/-!
# pidfile: a shallow embedding of `pidfile.go`

The Go package exposes one operation, `CreateOrUpdatePIDFile`, built from
`readPIDValue`, `isProcessActive` and `createPIDFile`.  The functions are
embedded as state-passing functions over a `World` (the marker file and the
sequence of system operations performed); the answers of the operating system
that the code cannot control (`os.Getpid`, a failing `os.ReadFile`,
`os.FindProcess`, the `kill(2)` call under `Process.Signal`, `os.OpenFile`,
`syscall.Flock`, `File.Write`) are the fields of an `Env`.
-/

namespace Pidfile

/-! ## Errors -/

/-- The type `syscall.Errno`: an error number of the operating system. -/
structure Errno where
  code : Nat
  deriving DecidableEq, Repr

/-- The value `syscall.ENOENT`. -/
def ENOENT : Errno := ⟨2⟩
/-- The value `syscall.ESRCH`. -/
def ESRCH : Errno := ⟨3⟩
/-- The value `syscall.EIO`. -/
def EIO : Errno := ⟨5⟩
/-- The value `syscall.EWOULDBLOCK` (equal to `EAGAIN` on Linux). -/
def EWOULDBLOCK : Errno := ⟨11⟩
/-- The value `syscall.EPERM`. -/
def EPERM : Errno := ⟨1⟩

/-- The two causes of a `*strconv.NumError`: `ErrSyntax` and `ErrRange`. -/
inductive NumErrKind
  | syntaxErr
  | rangeErr
  deriving DecidableEq, Repr

/-- The message prefixes of the seven `fmt.Errorf("...: %w", err)` calls of `pidfile.go`. -/
inductive Context
  | checkingActivity
  | signalingProcess
  | openingFile
  | lockingFile
  | writingPid
  | readingFile
  | parsingValue
  deriving DecidableEq, Repr

/-- The literal text of each `fmt.Errorf` prefix. -/
def Context.msg : Context → String
  | .checkingActivity => "error checking process activity"
  | .signalingProcess => "error signaling process"
  | .openingFile => "error opening PID file"
  | .lockingFile => "error locking PID file"
  | .writingPid => "error writing pid to PID file"
  | .readingFile => "error reading PID file"
  | .parsingValue => "error parsing PID value"

/-- Go `error` values as far as `pidfile.go` can produce or receive them.  Two
values are the same Go error (`==`) exactly when they are equal here. -/
inductive GoError
  /-- The package variable `ErrPIDExists`. -/
  | ErrPIDExists
  /-- The package variable `ErrLockFailed`. -/
  | ErrLockFailed
  /-- The value of `errors.New("invalid process ID")` in `isProcessActive`. -/
  | invalidProcessID
  /-- A bare `syscall.Errno`. -/
  | errno (e : Errno)
  /-- An `*fs.PathError` of the `os` package around an error number. -/
  | pathError (op : String) (e : Errno)
  /-- A `*strconv.NumError` of `strconv.Atoi`. -/
  | numError (kind : NumErrKind)
  /-- The variable `os.ErrProcessDone` ("os: process already finished"). -/
  | ErrProcessDone
  /-- The result of `fmt.Errorf(ctx + ": %w", inner)`. -/
  | wrapf (ctx : Context) (inner : GoError)
  deriving DecidableEq, Repr

/-- One step of `errors.Unwrap`. -/
def GoError.unwrap : GoError → Option GoError
  | .wrapf _ inner => some inner
  | .pathError _ e => some (.errno e)
  | _ => none

/-- The function `errors.Is(err, target)` for comparable targets: `target` is
found somewhere on the unwrap chain of `err`. -/
def errorsIs : GoError → GoError → Bool
  | .wrapf c inner, target => decide (GoError.wrapf c inner = target) || errorsIs inner target
  | .pathError op e, target =>
      decide (GoError.pathError op e = target) || decide (GoError.errno e = target)
  | err, target => decide (err = target)

/-- The function `os.IsNotExist` on the errors that `os.ReadFile` returns. -/
def osIsNotExist : GoError → Bool
  | .pathError _ e => decide (e = ENOENT)
  | .errno e => decide (e = ENOENT)
  | _ => false

/-! ## `strconv.Itoa` and `strconv.Atoi` (Go standard library, 64-bit `int`) -/

deriving instance DecidableEq for Except

/-- Decimal digits of `n`, most significant first, pushed in front of `acc`;
`fuel` bounds the number of digits produced. -/
def formatDigits : Nat → Nat → List Char → List Char
  | 0, _, acc => acc
  | fuel + 1, n, acc =>
      if n < 10 then Nat.digitChar n :: acc
      else formatDigits fuel (n / 10) (Nat.digitChar (n % 10) :: acc)

/-- Decimal representation of a natural number. -/
def formatNat (n : Nat) : List Char := formatDigits (n + 1) n []

/-- The function `strconv.Itoa`: decimal text of an `int`, with a leading `-`
for negative values. -/
def Itoa (i : Int) : List Char :=
  if i < 0 then '-' :: formatNat i.natAbs else formatNat i.natAbs

/-- The largest `uint64`. -/
def maxUint64 : Nat := 2 ^ 64 - 1

/-- The digit loop of `strconv.ParseUint(s, 10, 64)`: a byte outside `0`..`9`
is a syntax error, a value beyond `uint64` is a range error. -/
def parseUintLoop : List Char → Nat → Except NumErrKind Nat
  | [], n => .ok n
  | c :: cs, n =>
      if '0' ≤ c ∧ c ≤ '9' then
        if n ≥ maxUint64 / 10 + 1 then .error .rangeErr
        else if n * 10 + (c.toNat - '0'.toNat) > maxUint64 then .error .rangeErr
        else parseUintLoop cs (n * 10 + (c.toNat - '0'.toNat))
      else .error .syntaxErr

/-- The function `strconv.ParseUint(s, 10, 64)`. -/
def ParseUint (s : List Char) : Except NumErrKind Nat :=
  match s with
  | [] => .error .syntaxErr
  | _ => parseUintLoop s 0

/-- The function `strconv.ParseInt(s, 10, 0)` with a 64-bit `int`: an optional
sign, then `ParseUint`, then the check against the signed range. -/
def ParseInt (s : List Char) : Except NumErrKind Int :=
  match s with
  | [] => .error .syntaxErr
  | c :: cs =>
      let neg := decide (c = '-')
      let body := if c = '+' ∨ c = '-' then cs else c :: cs
      match ParseUint body with
      | .error k => .error k
      | .ok un =>
          if !neg && decide (un ≥ 2 ^ 63) then .error .rangeErr
          else if neg && decide (un > 2 ^ 63) then .error .rangeErr
          else .ok (if neg then -(un : Int) else (un : Int))

/-- The function `strconv.Atoi`: `ParseInt(s, 10, 0)`; for the strings its fast
path accepts the fast path returns the same value. -/
def Atoi (s : List Char) : Except NumErrKind Int := ParseInt s

/-! ## The world and the environment -/

/-- The system operations `pidfile.go` performs, in the order of the source. -/
inductive Event
  | readFile
  | findProcess (pid : Int)
  | signal0 (pid : Int)
  | openFile
  | flock
  | write (bytes : List Char)
  | close
  deriving DecidableEq, Repr

/-- The operations that open, lock, write or close the marker file, as opposed
to reading it or probing a process. -/
def Event.touchesFile : Event → Bool
  | .openFile => true
  | .flock => true
  | .write _ => true
  | .close => true
  | _ => false

/-- The marker file (`none` when no file exists at the path; each `Char` of the
content stands for one byte) and the operations performed so far, oldest
first. -/
structure World where
  marker : Option (List Char)
  trace : List Event
  deriving DecidableEq, Repr

/-- Content of the marker; a missing file has no bytes. -/
def World.content (w : World) : List Char := w.marker.getD []

/-- Append an operation to the trace. -/
def World.log (w : World) (e : Event) : World := { w with trace := w.trace ++ [e] }

/-- Outcome of `pf.Write(b)`: all of `b` written, or an error after the first
`written` bytes of `b` reached the file. -/
inductive WriteOutcome
  | ok
  | fail (written : Nat) (e : Errno)
  deriving DecidableEq, Repr

/-- A failure of `os.ReadFile` other than the file being absent: in the `open`
or in a `read` of the file. -/
inductive ReadFailure
  | atOpen (e : Errno)
  | atRead (e : Errno)
  deriving DecidableEq, Repr

/-- The `*fs.PathError` that `os.ReadFile` returns for a failure. -/
def ReadFailure.toError : ReadFailure → GoError
  | .atOpen e => .pathError "open" e
  | .atRead e => .pathError "read" e

/-- What the operating system answers during one call. -/
structure Env where
  /-- Result of `os.Getpid()`. -/
  getpid : Int
  /-- A failure of `os.ReadFile` on the path other than the file being absent. -/
  readFileErr : Option ReadFailure
  /-- Error of `os.FindProcess(pid)`; `none` on Unix. -/
  findProcessErr : Int → Option GoError
  /-- Answer of the system call `kill(pid, 0)`: `none` when the process exists
  and may be signalled, `ESRCH` when no such process exists. -/
  kill0 : Int → Option Errno
  /-- Error of `os.OpenFile(filename, O_RDWR|O_CREATE, 0644)`. -/
  openFileErr : Option Errno
  /-- Error of `syscall.Flock(fd, LOCK_EX|LOCK_NB)`. -/
  flockErr : Option Errno
  /-- Outcome of `pf.Write`. -/
  write : WriteOutcome

/-- Bytes of a file after `data` is written at offset 0 of a file holding
`old`, without truncation: the bytes of `old` beyond `data` stay. -/
def writeAt0 (old data : List Char) : List Char := data ++ old.drop data.length

/-- The call `process.Signal(syscall.Signal(0))` of the Go standard library on
Unix, for a process found by `os.FindProcess`: it calls `kill(pid, 0)` and
reports `ESRCH` as `os.ErrProcessDone`, any other error number as it is. -/
def processSignal0 (env : Env) (pid : Int) : Option GoError :=
  match env.kill0 pid with
  | none => none
  | some e => if e = ESRCH then some .ErrProcessDone else some (.errno e)

/-- The call `os.ReadFile(filename)`. -/
def osReadFile (env : Env) (w : World) : Except GoError (List Char) × World :=
  match env.readFileErr with
  | some f => (.error f.toError, w.log .readFile)
  | none =>
      match w.marker with
      | none => (.error (.pathError "open" ENOENT), w.log .readFile)
      | some c => (.ok c, w.log .readFile)

/-! ## The functions of `pidfile.go` -/

/-- The function `readPIDValue`: the Go result pair `(int, error)`. -/
def readPIDValue (env : Env) (w : World) : (Int × Option GoError) × World :=
  match osReadFile env w with
  | (.error err, w1) =>
      if !osIsNotExist err then ((0, some (.wrapf .readingFile err)), w1)
      else ((0, none), w1)
  | (.ok value, w1) =>
      match Atoi value with
      | .error k => ((0, some (.wrapf .parsingValue (.numError k))), w1)
      | .ok pid => ((pid, none), w1)

/-- The function `isProcessActive`: the Go result pair `(bool, error)`. -/
def isProcessActive (env : Env) (pid : Int) (w : World) : (Bool × Option GoError) × World :=
  if pid ≤ 0 then ((false, some .invalidProcessID), w)
  else
    let w1 := w.log (.findProcess pid)
    match env.findProcessErr pid with
    | some _ => ((false, none), w1)
    | none =>
        let w2 := w1.log (.signal0 pid)
        match processSignal0 env pid with
        | some err =>
            if err = .errno ESRCH then ((false, none), w2)
            else ((false, some (.wrapf .signalingProcess err)), w2)
        | none => ((true, none), w2)

/-- The function `createPIDFile`. -/
def createPIDFile (env : Env) (w : World) : Option GoError × World :=
  match env.openFileErr with
  | some e => (some (.wrapf .openingFile (.pathError "open" e)), w.log .openFile)
  | none =>
      let w1 : World := { marker := some w.content, trace := w.trace ++ [.openFile] }
      let w2 := w1.log .flock
      match env.flockErr with
      | some e =>
          if e = EWOULDBLOCK then (some .ErrLockFailed, w2.log .close)
          else (some (.wrapf .lockingFile (.errno e)), w2.log .close)
      | none =>
          let pid := env.getpid
          let b := Itoa pid
          match env.write with
          | .fail n e =>
              let w3 : World :=
                { marker := some (writeAt0 w2.content (b.take n)),
                  trace := w2.trace ++ [.write (b.take n)] }
              (some (.wrapf .writingPid (.pathError "write" e)), w3.log .close)
          | .ok =>
              let w3 : World :=
                { marker := some (writeAt0 w2.content b), trace := w2.trace ++ [.write b] }
              (none, w3.log .close)

/-- The function `CreateOrUpdatePIDFile`. -/
def CreateOrUpdatePIDFile (env : Env) (w : World) : Option GoError × World :=
  match readPIDValue env w with
  | ((pid, none), w1) =>
      match isProcessActive env pid w1 with
      | ((_, some err), w2) => (some (.wrapf .checkingActivity err), w2)
      | ((true, none), w2) => (some .ErrPIDExists, w2)
      | ((false, none), w2) => createPIDFile env w2
  | ((_, some _), w1) => createPIDFile env w1

/-- The three-outcome table of the specification for the liveness oracle, as a
function of the identifier and of what the operating system answers to the
zero-effect existence check `kill(pid, 0)`: an identifier `≤ 0` is an
input-validation failure; "target process does not exist" (`ESRCH`) is
`(false, nil)`; "exists and is reachable" is `(true, nil)`; a probe that fails
for any other reason is `(false, err)`, `err` wrapping the probe error. -/
def isProcessActiveTable (pid : Int) (answer : Option Errno) : Bool × Option GoError :=
  if pid ≤ 0 then (false, some .invalidProcessID)
  else
    match answer with
    | none => (true, none)
    | some e =>
        if e = ESRCH then (false, none)
        else (false, some (.wrapf .signalingProcess (.errno e)))

/-! ## Two processes on one marker

The steps of one call, taken one at a time by two processes that share the
marker file and its advisory lock.  A step of a process is one of: read the
marker (`readPIDValue`), probe (`isProcessActive`), open, lock, write, close.
-/

/-- The two racing processes. -/
inductive Proc
  | A
  | B
  deriving DecidableEq, Repr

/-- The other process. -/
def Proc.other : Proc → Proc
  | .A => .B
  | .B => .A

/-- Where a process stands inside its call of `CreateOrUpdatePIDFile`. -/
inductive Pc
  /-- Before `readPIDValue`. -/
  | start
  /-- After `readPIDValue` returned `(pid, nil)`, before `isProcessActive(pid)`. -/
  | probing (pid : Int)
  /-- In `createPIDFile`, before `os.OpenFile`. -/
  | opening
  /-- File open, before `syscall.Flock`. -/
  | locking
  /-- Lock held, before `pf.Write`. -/
  | writing
  /-- The result is decided, the deferred `pf.Close()` is still to run. -/
  | closing (result : Option GoError)
  /-- The call has returned `result`. -/
  | done (result : Option GoError)
  deriving DecidableEq, Repr

/-- The identifiers of the two processes and the answers of `kill(pid, 0)`. -/
structure Race where
  pidA : Int
  pidB : Int
  kill0 : Int → Option Errno

/-- Process id of a racing process. -/
def Race.pid (r : Race) : Proc → Int
  | .A => r.pidA
  | .B => r.pidB

/-- The environment of one racing process: reading, opening and writing
succeed; the lock is decided by the shared state, not by this record. -/
def Race.env (r : Race) (i : Proc) : Env where
  getpid := r.pid i
  readFileErr := none
  findProcessErr := fun _ => none
  kill0 := r.kill0
  openFileErr := none
  flockErr := none
  write := .ok

/-- The six steps of a call: read the marker, probe the owner, open the file,
attempt the lock, write, close. -/
inductive Op
  | read
  | probe
  | open
  | lock
  | write
  | close
  deriving DecidableEq, Repr

/-- The marker file, the holder of its exclusive lock, where each of the two
processes stands, and the steps taken so far, oldest first. -/
structure Shared where
  marker : Option (List Char)
  lock : Option Proc
  pc : Proc → Pc
  log : List (Proc × Op)

/-- Move process `i` to `pc`. -/
def Shared.setPc (s : Shared) (i : Proc) (pc : Pc) : Shared :=
  { s with pc := fun j => if j = i then pc else s.pc j }

/-- Record that process `i` took the step `op`. -/
def Shared.record (s : Shared) (i : Proc) (op : Op) : Shared :=
  { s with log := s.log ++ [(i, op)] }

/-- Both processes are about to call `CreateOrUpdatePIDFile` on the marker `m`,
which nobody has locked. -/
def Shared.init (m : Option (List Char)) : Shared :=
  { marker := m, lock := none, pc := fun _ => .start, log := [] }

/-- The step `a` is in the log and the step `b` is in the log after it. -/
def precedes (a b : Proc × Op) : List (Proc × Op) → Bool
  | [] => false
  | x :: rest => (decide (x = a) && decide (b ∈ rest)) || precedes a b rest

/-- Process `i` closed the file before the other process attempted the lock. -/
def Shared.handover (s : Shared) (i : Proc) : Bool :=
  precedes (i, .close) (i.other, .lock) s.log

/-- One step of process `i`.  The lock attempt fails with `EWOULDBLOCK` exactly
when the lock is held; closing the file releases a lock held through it. -/
def step (r : Race) (i : Proc) (s : Shared) : Shared :=
  match s.pc i with
  | .start =>
      match (readPIDValue (r.env i) ⟨s.marker, []⟩).1 with
      | (pid, none) => (s.record i .read).setPc i (.probing pid)
      | (_, some _) => (s.record i .read).setPc i .opening
  | .probing pid =>
      match (isProcessActive (r.env i) pid ⟨s.marker, []⟩).1 with
      | (_, some err) =>
          (s.record i .probe).setPc i (.done (some (.wrapf .checkingActivity err)))
      | (true, none) => (s.record i .probe).setPc i (.done (some .ErrPIDExists))
      | (false, none) => (s.record i .probe).setPc i .opening
  | .opening =>
      (Shared.record { s with marker := some (s.marker.getD []) } i .open).setPc i .locking
  | .locking =>
      match s.lock with
      | some _ => (s.record i .lock).setPc i (.closing (some .ErrLockFailed))
      | none => (Shared.record { s with lock := some i } i .lock).setPc i .writing
  | .writing =>
      (Shared.record
        { s with marker := some (writeAt0 (s.marker.getD []) (Itoa (r.pid i))) }
        i .write).setPc i (.closing none)
  | .closing res =>
      (Shared.record { s with lock := if s.lock = some i then none else s.lock }
        i .close).setPc i (.done res)
  | .done _ => s

/-- Run a schedule: the processes step in the listed order. -/
def run (r : Race) : List Proc → Shared → Shared
  | [], s => s
  | i :: rest, s => run r rest (step r i s)

/-- Number of steps a process still has to take, at most. -/
def Pc.remaining : Pc → Nat
  | .start => 6
  | .probing _ => 5
  | .opening => 4
  | .locking => 3
  | .writing => 2
  | .closing _ => 1
  | .done _ => 0

/-- The process has written its id: its call returns nil. -/
def Pc.wrote : Pc → Bool
  | .closing none => true
  | .done none => true
  | _ => false

/-- The process holds the lock or has written: its call returns nil. -/
def Pc.wins : Pc → Bool
  | .writing => true
  | .closing none => true
  | .done none => true
  | _ => false

/-- Both racing processes are live: their ids are positive `int`s and the probe
of either succeeds. -/
structure Race.Live (r : Race) : Prop where
  pos : ∀ i, 0 < r.pid i
  bound : ∀ i, r.pid i < 2 ^ 63
  alive : ∀ i, r.kill0 (r.pid i) = none

/-- What holds in every state two live processes reach from an empty marker. -/
structure RaceInv (r : Race) (s : Shared) : Prop where
  marker_some : ∃ c, s.marker = some c
  lock_iff : ∀ i, s.lock = some i ↔ (s.pc i = .writing ∨ s.pc i = .closing none)
  fresh : (∀ i, (s.pc i).wrote = false) → s.marker = some []
  single : ∀ i, (s.pc i).wrote = true → (s.pc i.other).wrote = false →
    s.marker = some (Itoa (r.pid i))
  probing : ∀ i pid, s.pc i = .probing pid →
    pid = r.pid i.other ∧ (s.pc i.other).wrote = true
  failed : ∀ i e, (s.pc i = .done (some e) ∨ s.pc i = .closing (some e)) →
    (e = .ErrPIDExists ∨ e = .ErrLockFailed) ∧ (s.pc i.other).wins = true
  closed_done : ∀ i, (i, Op.close) ∈ s.log → ∃ res, s.pc i = .done res
  done_closed : ∀ i, s.pc i = .done none → (i, Op.close) ∈ s.log
  handover_wins : ∀ i, s.handover i = true →
    (s.pc i).wins = true ∧ (s.pc i.other).wins = true
  wins_handover : (∀ i, (s.pc i).wins = true) → ∃ i, s.handover i = true

/-- The processes 4242 and 4343, both alive. -/
def raceOk : Race where
  pidA := 4242
  pidB := 4343
  kill0 := fun p => if p = 4242 ∨ p = 4343 then none else some ESRCH

/-! ## Environments and markers used as concrete inputs -/

/-- The caller has process id 4242, every system call succeeds and only the
process 4242 exists: `kill` answers `ESRCH` for every other id. -/
def envOk : Env where
  getpid := 4242
  readFileErr := none
  findProcessErr := fun _ => none
  kill0 := fun p => if p = 4242 then none else some ESRCH
  openFileErr := none
  flockErr := none
  write := .ok

/-- As `envOk`, but `pf.Write` fails with `EIO` after two bytes reached the file. -/
def envShortWrite : Env where
  getpid := 4242
  readFileErr := none
  findProcessErr := fun _ => none
  kill0 := fun p => if p = 4242 then none else some ESRCH
  openFileErr := none
  flockErr := none
  write := .fail 2 EIO

/-- As `envOk`, but the lock is held by another process: `Flock` answers
`EWOULDBLOCK`. -/
def envLockHeld : Env where
  getpid := 4242
  readFileErr := none
  findProcessErr := fun _ => none
  kill0 := fun p => if p = 4242 then none else some ESRCH
  openFileErr := none
  flockErr := some EWOULDBLOCK
  write := .ok

/-! ## Decimal text: `Atoi` reads back what `Itoa` prints -/

theorem digitChar_isDigit (d : Nat) (h : d < 10) :
    ('0' ≤ Nat.digitChar d ∧ Nat.digitChar d ≤ '9') ∧
      (Nat.digitChar d).toNat - '0'.toNat = d ∧
      Nat.digitChar d ≠ '+' ∧ Nat.digitChar d ≠ '-' := by
  interval_cases d <;> decide

theorem parseUintLoop_digit (d m : Nat) (acc : List Char) (hd : d < 10)
    (hm : m * 10 + d ≤ maxUint64) :
    parseUintLoop (Nat.digitChar d :: acc) m = parseUintLoop acc (m * 10 + d) := by
  obtain ⟨h1, h2, -, -⟩ := digitChar_isDigit d hd
  have hc : ¬ m ≥ maxUint64 / 10 + 1 := by
    have : maxUint64 = 18446744073709551615 := by decide
    omega
  simp only [parseUintLoop, h1, h2, and_self, if_true, hc, if_false]
  rw [if_neg (by omega)]

theorem parseUintLoop_formatDigits (fuel : Nat) :
    ∀ (n : Nat) (acc : List Char), n < fuel → n ≤ maxUint64 →
      parseUintLoop (formatDigits fuel n acc) 0 = parseUintLoop acc n := by
  induction fuel with
  | zero => intro n acc h; omega
  | succ fuel ih =>
      intro n acc hlt hmax
      unfold formatDigits
      by_cases h10 : n < 10
      · rw [if_pos h10, parseUintLoop_digit n 0 acc h10 (by omega)]
        simp
      · rw [if_neg h10, ih (n / 10) _ (by omega) (by omega),
          parseUintLoop_digit (n % 10) (n / 10) acc (by omega) (by omega)]
        congr 1
        omega

theorem formatDigits_head (fuel : Nat) :
    ∀ (n : Nat) (acc : List Char),
      ∃ d cs, d < 10 ∧ formatDigits (fuel + 1) n acc = Nat.digitChar d :: cs := by
  induction fuel with
  | zero =>
      intro n acc
      unfold formatDigits
      by_cases h10 : n < 10
      · exact ⟨n, acc, h10, by rw [if_pos h10]⟩
      · exact ⟨n % 10, acc, by omega, by rw [if_neg h10]; rfl⟩
  | succ fuel ih =>
      intro n acc
      unfold formatDigits
      by_cases h10 : n < 10
      · exact ⟨n, acc, h10, by rw [if_pos h10]⟩
      · rw [if_neg h10]
        exact ih (n / 10) _

/-- Reading back a printed non-negative `int`: `Atoi (Itoa i) = i`. -/
theorem Atoi_Itoa (i : Int) (h0 : 0 ≤ i) (h63 : i < 2 ^ 63) : Atoi (Itoa i) = .ok i := by
  obtain ⟨n, rfl⟩ := Int.eq_ofNat_of_zero_le h0
  have hn : n < 2 ^ 63 := by exact_mod_cast h63
  have hmax : n ≤ maxUint64 := by
    have : maxUint64 = 18446744073709551615 := by decide
    omega
  obtain ⟨d, cs, hd, hcs⟩ := formatDigits_head n n []
  obtain ⟨-, -, hplus, hminus⟩ := digitChar_isDigit d hd
  have hloop := parseUintLoop_formatDigits (n + 1) n [] (by omega) hmax
  have hI : Itoa (n : Int) = Nat.digitChar d :: cs := by
    simp [Itoa, formatNat, hcs]
  rw [hcs] at hloop
  simp only [Atoi, hI, ParseInt, ParseUint, hplus, hminus, or_self, if_false, hloop,
    parseUintLoop, decide_False, Bool.not_false, Bool.true_and, Bool.false_and]
  simp only [ge_iff_le, Nat.not_le.mpr hn, decide_False, if_false]
  simp

/-! ## The steps leave the marker alone until the write -/

theorem readPIDValue_world (env : Env) (w : World) :
    (readPIDValue env w).2 = w.log .readFile := by
  unfold readPIDValue osReadFile
  rcases env.readFileErr with _ | e <;> rcases w.marker with _ | c <;> simp only <;>
    split <;> simp_all

theorem readPIDValue_present (env : Env) (w : World) (c : List Char)
    (hm : w.marker = some c) (hr : env.readFileErr = none) :
    readPIDValue env w =
      match Atoi c with
      | .error k => ((0, some (.wrapf .parsingValue (.numError k))), w.log .readFile)
      | .ok pid => ((pid, none), w.log .readFile) := by
  unfold readPIDValue osReadFile
  simp only [hr, hm]

theorem isProcessActive_marker (env : Env) (pid : Int) (w : World) :
    (isProcessActive env pid w).2.marker = w.marker := by
  unfold isProcessActive
  split
  · rfl
  · simp only
    split
    · rfl
    · split
      · split <;> rfl
      · rfl

theorem isProcessActive_trace (env : Env) (pid : Int) (w : World) :
    ∃ evs, (isProcessActive env pid w).2.trace = w.trace ++ evs ∧
      ∀ ev ∈ evs, ev = .findProcess pid ∨ ev = .signal0 pid := by
  unfold isProcessActive
  split
  · exact ⟨[], by simp⟩
  · simp only
    split
    · exact ⟨[.findProcess pid], by simp [World.log]⟩
    · split
      · split <;> exact ⟨[.findProcess pid, .signal0 pid], by simp [World.log]⟩
      · exact ⟨[.findProcess pid, .signal0 pid], by simp [World.log]⟩

theorem isProcessActive_result (env : Env) (pid : Int) (w w' : World) :
    (isProcessActive env pid w).1 = (isProcessActive env pid w').1 := by
  unfold isProcessActive
  split
  · rfl
  · simp only
    split
    · rfl
    · split
      · split <;> rfl
      · rfl

theorem createPIDFile_openErr (env : Env) (w : World) (e : Errno)
    (ho : env.openFileErr = some e) :
    createPIDFile env w =
      (some (.wrapf .openingFile (.pathError "open" e)), w.log .openFile) := by
  simp only [createPIDFile, ho]

theorem createPIDFile_flockErr (env : Env) (w : World) (e : Errno)
    (ho : env.openFileErr = none) (hl : env.flockErr = some e) :
    createPIDFile env w =
      (some (if e = EWOULDBLOCK then .ErrLockFailed else .wrapf .lockingFile (.errno e)),
        ⟨some w.content, w.trace ++ [.openFile, .flock, .close]⟩) := by
  simp only [createPIDFile, ho, hl, World.log]
  split <;> simp

theorem createPIDFile_writeFail (env : Env) (w : World) (n : Nat) (e : Errno)
    (ho : env.openFileErr = none) (hl : env.flockErr = none) (hw : env.write = .fail n e) :
    createPIDFile env w =
      (some (.wrapf .writingPid (.pathError "write" e)),
        ⟨some (writeAt0 w.content ((Itoa env.getpid).take n)),
          w.trace ++ [.openFile, .flock, .write ((Itoa env.getpid).take n), .close]⟩) := by
  simp [createPIDFile, ho, hl, hw, World.log, World.content]

theorem createPIDFile_writeOk (env : Env) (w : World)
    (ho : env.openFileErr = none) (hl : env.flockErr = none) (hw : env.write = .ok) :
    createPIDFile env w =
      (none,
        ⟨some (writeAt0 w.content (Itoa env.getpid)),
          w.trace ++ [.openFile, .flock, .write (Itoa env.getpid), .close]⟩) := by
  simp [createPIDFile, ho, hl, hw, World.log, World.content]

/-- The three ways `CreateOrUpdatePIDFile` ends: the probe error wrapped, the
sentinel `ErrPIDExists`, or whatever `createPIDFile` returns; before
`createPIDFile` runs the marker is untouched and only reads and probes happened. -/
theorem CreateOrUpdatePIDFile_cases (env : Env) (w : World) :
    ∃ w1 evs, w1.marker = w.marker ∧ w1.trace = w.trace ++ evs ∧
      (∀ ev ∈ evs, ev.touchesFile = false) ∧
      ((∃ err, CreateOrUpdatePIDFile env w = (some (.wrapf .checkingActivity err), w1)) ∨
        CreateOrUpdatePIDFile env w = (some .ErrPIDExists, w1) ∨
        CreateOrUpdatePIDFile env w = createPIDFile env w1) := by
  have hw := readPIDValue_world env w
  unfold CreateOrUpdatePIDFile
  rcases hr : readPIDValue env w with ⟨⟨pid, _ | rerr⟩, w0⟩
  · rw [hr] at hw
    simp only at hw
    subst hw
    obtain ⟨evs, htr, hevs⟩ := isProcessActive_trace env pid (w.log .readFile)
    have hmk := isProcessActive_marker env pid (w.log .readFile)
    refine ⟨(isProcessActive env pid (w.log .readFile)).2, .readFile :: evs, hmk, ?_, ?_, ?_⟩
    · rw [htr]; simp [World.log]
    · intro ev hev
      rcases List.mem_cons.mp hev with h | h
      · subst h; rfl
      · rcases hevs ev h with h | h <;> subst h <;> rfl
    · rcases ha : isProcessActive env pid (w.log .readFile) with ⟨⟨b, _ | aerr⟩, w2⟩
      · cases b
        · right; right; simp only [ha]
        · right; left; simp only [ha]
      · left; exact ⟨aerr, by simp only [ha]⟩
  · rw [hr] at hw
    simp only at hw
    subst hw
    exact ⟨w.log .readFile, [.readFile], rfl, rfl, by simp [Event.touchesFile], Or.inr (Or.inr rfl)⟩

theorem errorsIs_self (e : GoError) : errorsIs e e = true := by
  cases e <;> simp [errorsIs]

theorem createPIDFile_success (env : Env) (w : World) (h : (createPIDFile env w).1 = none) :
    (createPIDFile env w).2.content = writeAt0 w.content (Itoa env.getpid) := by
  rcases ho : env.openFileErr with _ | e
  · rcases hl : env.flockErr with _ | e
    · rcases hw : env.write with _ | ⟨n, e⟩
      · rw [createPIDFile_writeOk env w ho hl hw]; rfl
      · rw [createPIDFile_writeFail env w n e ho hl hw] at h; simp at h
    · rw [createPIDFile_flockErr env w e ho hl] at h; simp at h
  · rw [createPIDFile_openErr env w e ho] at h; simp at h

theorem createPIDFile_failure (env : Env) (w : World) (e : GoError)
    (h : (createPIDFile env w).1 = some e)
    (hz : (∃ inner, e = .wrapf .writingPid inner) →
      ∀ n errno, env.write = .fail n errno → n = 0) :
    (createPIDFile env w).2.content = w.content := by
  rcases ho : env.openFileErr with _ | e1
  · rcases hl : env.flockErr with _ | e2
    · rcases hw : env.write with _ | ⟨n, e3⟩
      · rw [createPIDFile_writeOk env w ho hl hw] at h; simp at h
      · rw [createPIDFile_writeFail env w n e3 ho hl hw] at h ⊢
        simp only [Option.some.injEq] at h
        have hn : n = 0 := hz ⟨_, h.symm⟩ n e3 hw
        subst hn
        simp [World.content, writeAt0]
    · rw [createPIDFile_flockErr env w e2 ho hl]; rfl
  · rw [createPIDFile_openErr env w e1 ho]; rfl

/-! ## The liveness oracle -/

/-- C8: the code against the three-outcome table, with `os.FindProcess`
succeeding.  For an identifier `≤ 0` the result is `(false, invalid process ID)`
and nothing is probed; for a positive identifier whose probe succeeds it is
`(true, nil)`, and for a probe failing with an error number other than `ESRCH`
it is `false` with an error wrapping it: in these rows the code returns the
table's entry, and `true` comes only with a nil error.  For a positive
identifier with no such process (`kill` answers `ESRCH`) the table has
`(false, nil)`, but the code returns `(false, error signaling process: os:
process already finished)`: `Process.Signal` reports `os.ErrProcessDone`, which
the comparison `err == syscall.ESRCH` does not match. -/
theorem isProcessActive_vs_table (env : Env) (pid : Int) (w : World)
    (hfind : env.findProcessErr pid = none) :
    (pid ≤ 0 ∨ env.kill0 pid ≠ some ESRCH →
        (isProcessActive env pid w).1 = isProcessActiveTable pid (env.kill0 pid)) ∧
      (pid ≤ 0 → isProcessActive env pid w = ((false, some .invalidProcessID), w)) ∧
      (0 < pid → env.kill0 pid = some ESRCH →
        (isProcessActive env pid w).1 =
            (false, some (.wrapf .signalingProcess .ErrProcessDone)) ∧
          isProcessActiveTable pid (env.kill0 pid) = (false, none)) ∧
      ((isProcessActive env pid w).1.1 = true → (isProcessActive env pid w).1.2 = none) := by
  by_cases hp : pid ≤ 0
  · have hv : isProcessActive env pid w = ((false, some .invalidProcessID), w) := by
      simp [isProcessActive, hp]
    refine ⟨fun _ => by simp [hv, isProcessActiveTable, hp], fun _ => hv, ?_, ?_⟩
    · intro h; omega
    · rw [hv]; simp
  · have hpos : 0 < pid := by omega
    rcases hk : env.kill0 pid with _ | e
    · have hv : (isProcessActive env pid w).1 = (true, none) := by
        simp [isProcessActive, processSignal0, hp, hfind, hk]
      refine ⟨fun _ => by simp [hv, isProcessActiveTable, hp], fun h => absurd h hp, ?_, ?_⟩
      · intro _ h; simp at h
      · intro _; rw [hv]
    · by_cases he : e = ESRCH
      · subst he
        have hv : (isProcessActive env pid w).1 =
            (false, some (.wrapf .signalingProcess .ErrProcessDone)) := by
          simp [isProcessActive, processSignal0, hp, hfind, hk]
        refine ⟨?_, fun h => absurd h hp, ?_, ?_⟩
        · rintro (h | h)
          · exact absurd h hp
          · exact absurd rfl h
        · intro _ _
          exact ⟨hv, by simp [isProcessActiveTable, hp]⟩
        · rw [hv]; simp
      · have hv : (isProcessActive env pid w).1 =
            (false, some (.wrapf .signalingProcess (.errno e))) := by
          simp [isProcessActive, processSignal0, hp, hfind, hk, he]
        refine ⟨fun _ => by simp [hv, isProcessActiveTable, hp, he],
          fun h => absurd h hp, ?_, ?_⟩
        · intro _ h
          simp only [Option.some.injEq] at h
          exact absurd h he
        · rw [hv]; simp

theorem isProcessActive_vs_table_witness :
    envOk.findProcessErr 999999999 = none ∧ envOk.kill0 999999999 = some ESRCH ∧
      (isProcessActive envOk 999999999 ⟨none, []⟩).1 =
        (false, some (.wrapf .signalingProcess .ErrProcessDone)) ∧
      isProcessActiveTable 999999999 (envOk.kill0 999999999) = (false, none) :=
  ⟨rfl, by decide,
    ((isProcessActive_vs_table envOk 999999999 ⟨none, []⟩ rfl).2.2.1 (by decide)
      (by decide)).1,
    ((isProcessActive_vs_table envOk 999999999 ⟨none, []⟩ rfl).2.2.1 (by decide)
      (by decide)).2⟩

/-! ## The claim manager -/

/-- C10: when `CreateOrUpdatePIDFile` returns nil, the marker holds the decimal
string `s` of the caller's process id followed by the old bytes from offset
`len(s)` on; its length is `max(len(old), len(s))`, and it is exactly `s` if and
only if `len(old) ≤ len(s)`. -/
theorem CreateOrUpdatePIDFile_success_content (env : Env) (w : World)
    (h : (CreateOrUpdatePIDFile env w).1 = none) :
    (CreateOrUpdatePIDFile env w).2.content =
        Itoa env.getpid ++ w.content.drop (Itoa env.getpid).length ∧
      (CreateOrUpdatePIDFile env w).2.content.length =
        max w.content.length (Itoa env.getpid).length ∧
      ((CreateOrUpdatePIDFile env w).2.content = Itoa env.getpid ↔
        w.content.length ≤ (Itoa env.getpid).length) := by
  obtain ⟨w1, evs, hmk, -, -, hc⟩ := CreateOrUpdatePIDFile_cases env w
  have hcont : w1.content = w.content := by simp [World.content, hmk]
  have key : (CreateOrUpdatePIDFile env w).2.content =
      Itoa env.getpid ++ w.content.drop (Itoa env.getpid).length := by
    rcases hc with ⟨err, hc⟩ | hc | hc
    · rw [hc] at h; simp at h
    · rw [hc] at h; simp at h
    · rw [hc] at h ⊢
      rw [createPIDFile_success env w1 h, hcont]
      rfl
  refine ⟨key, ?_, ?_⟩
  · rw [key, List.length_append, List.length_drop]
    omega
  · rw [key]
    constructor
    · intro heq
      have hlen := congrArg List.length heq
      rw [List.length_append, List.length_drop] at hlen
      omega
    · intro hle
      rw [List.drop_eq_nil_of_le hle, List.append_nil]

theorem CreateOrUpdatePIDFile_success_content_witness :
    (CreateOrUpdatePIDFile envOk ⟨some "abcdefghi".toList, []⟩).1 = none ∧
      (CreateOrUpdatePIDFile envOk ⟨some "abcdefghi".toList, []⟩).2.content =
        Itoa 4242 ++ "abcdefghi".toList.drop (Itoa 4242).length :=
  ⟨by decide, (CreateOrUpdatePIDFile_success_content envOk ⟨some "abcdefghi".toList, []⟩
    (by decide)).1⟩

/-- C1: the code at a path with no file.  `readPIDValue` answers `(0, nil)`,
the identifier 0 goes to `isProcessActive`, which rejects it, and
`CreateOrUpdatePIDFile` returns `error checking process activity: invalid
process ID`: the file is not created and nothing is opened or written. -/
theorem CreateOrUpdatePIDFile_missing_marker (env : Env) (tr : List Event) :
    CreateOrUpdatePIDFile { env with readFileErr := none } ⟨none, tr⟩ =
      (some (.wrapf .checkingActivity .invalidProcessID), ⟨none, tr ++ [.readFile]⟩) := by
  simp [CreateOrUpdatePIDFile, readPIDValue, osReadFile, osIsNotExist, isProcessActive,
    World.log]

/-- C6, counterexample: on the marker `abc` the write fails with `EIO` after two
bytes; the call returns a non-nil error and the marker holds `42c`. -/
theorem CreateOrUpdatePIDFile_failed_write_mutates :
    (CreateOrUpdatePIDFile envShortWrite ⟨some "abc".toList, []⟩).1 =
        some (.wrapf .writingPid (.pathError "write" EIO)) ∧
      (CreateOrUpdatePIDFile envShortWrite ⟨some "abc".toList, []⟩).2.content = "42c".toList ∧
      (CreateOrUpdatePIDFile envShortWrite ⟨some "abc".toList, []⟩).2.content ≠
        (World.mk (some "abc".toList) []).content := by
  decide

/-- C6, amended: for every initial marker and every outcome of the read, probe,
open, lock and write steps, if `CreateOrUpdatePIDFile` returns a non-nil error
and that error is not a write error raised after some bytes were written, the
content of the marker after the call equals its content before the call. -/
theorem CreateOrUpdatePIDFile_failure_content (env : Env) (w : World) (e : GoError)
    (h : (CreateOrUpdatePIDFile env w).1 = some e)
    (hz : (∃ inner, e = .wrapf .writingPid inner) →
      ∀ n errno, env.write = .fail n errno → n = 0) :
    (CreateOrUpdatePIDFile env w).2.content = w.content := by
  obtain ⟨w1, evs, hmk, -, -, hc⟩ := CreateOrUpdatePIDFile_cases env w
  have hcont : w1.content = w.content := by simp [World.content, hmk]
  rcases hc with ⟨err, hc⟩ | hc | hc
  · rw [hc]; exact hcont
  · rw [hc]; exact hcont
  · rw [hc] at h ⊢
    rw [createPIDFile_failure env w1 e h hz, hcont]

theorem CreateOrUpdatePIDFile_failure_content_witness :
    (CreateOrUpdatePIDFile envLockHeld ⟨some "abc".toList, []⟩).1 = some .ErrLockFailed ∧
      (CreateOrUpdatePIDFile envLockHeld ⟨some "abc".toList, []⟩).2.content =
        (World.mk (some "abc".toList) []).content :=
  ⟨by decide, CreateOrUpdatePIDFile_failure_content envLockHeld ⟨some "abc".toList, []⟩
    .ErrLockFailed (by decide) (by intro ⟨inner, hi⟩; cases hi)⟩

/-- C9: for every call that reaches the lock step (a `flock` is in its trace):
if the lock attempt answers `EWOULDBLOCK` the call returns exactly
`ErrLockFailed`; if it answers another error the call returns
`error locking PID file` wrapping that error, which is not `ErrLockFailed`; in
both cases no write happens and the content of the marker stays as it was. -/
theorem CreateOrUpdatePIDFile_lock_failure (env : Env) (m : Option (List Char))
    (hreach : Event.flock ∈ (CreateOrUpdatePIDFile env ⟨m, []⟩).2.trace) :
    (env.flockErr = some EWOULDBLOCK →
        (CreateOrUpdatePIDFile env ⟨m, []⟩).1 = some .ErrLockFailed ∧
        (CreateOrUpdatePIDFile env ⟨m, []⟩).2.content = m.getD [] ∧
        ∀ b, Event.write b ∉ (CreateOrUpdatePIDFile env ⟨m, []⟩).2.trace) ∧
      (∀ e, env.flockErr = some e → e ≠ EWOULDBLOCK →
        (CreateOrUpdatePIDFile env ⟨m, []⟩).1 = some (.wrapf .lockingFile (.errno e)) ∧
        errorsIs (.wrapf .lockingFile (.errno e)) (.errno e) = true ∧
        errorsIs (.wrapf .lockingFile (.errno e)) .ErrLockFailed = false ∧
        (CreateOrUpdatePIDFile env ⟨m, []⟩).2.content = m.getD [] ∧
        ∀ b, Event.write b ∉ (CreateOrUpdatePIDFile env ⟨m, []⟩).2.trace) := by
  obtain ⟨w1, evs, hmk, htr, hevs, hc⟩ := CreateOrUpdatePIDFile_cases env ⟨m, []⟩
  have hcont : w1.content = m.getD [] := by simp [World.content, hmk]
  have hnot : ∀ ev, ev.touchesFile = true → ev ∉ w1.trace := by
    intro ev hev hmem
    rw [htr] at hmem
    simp only [List.nil_append] at hmem
    rw [hevs ev hmem] at hev
    cases hev
  have hcreate : CreateOrUpdatePIDFile env ⟨m, []⟩ = createPIDFile env w1 ∧
      env.openFileErr = none := by
    rcases hc with ⟨err, hc⟩ | hc | hc
    · rw [hc] at hreach; exact absurd hreach (hnot _ rfl)
    · rw [hc] at hreach; exact absurd hreach (hnot _ rfl)
    · refine ⟨hc, ?_⟩
      rcases ho : env.openFileErr with _ | e1
      · rfl
      · rw [hc, createPIDFile_openErr env w1 e1 ho] at hreach
        simp only [World.log, List.mem_append, List.mem_singleton] at hreach
        rcases hreach with h | h
        · exact absurd h (hnot _ rfl)
        · cases h
  obtain ⟨hc, ho⟩ := hcreate
  have hnowrite : ∀ e, env.flockErr = some e →
      ∀ b, Event.write b ∉ (CreateOrUpdatePIDFile env ⟨m, []⟩).2.trace := by
    intro e hl b hmem
    rw [hc, createPIDFile_flockErr env w1 e ho hl] at hmem
    simp only [List.mem_append, List.mem_cons, List.mem_singleton, List.not_mem_nil,
      or_false] at hmem
    rcases hmem with h | h | h | h
    · exact absurd h (hnot _ rfl)
    · cases h
    · cases h
    · cases h
  constructor
  · intro hl
    refine ⟨?_, ?_, hnowrite _ hl⟩
    · rw [hc, createPIDFile_flockErr env w1 _ ho hl]; simp
    · rw [hc, createPIDFile_flockErr env w1 _ ho hl]; exact hcont
  · intro e hl hne
    refine ⟨?_, ?_, ?_, ?_, hnowrite _ hl⟩
    · rw [hc, createPIDFile_flockErr env w1 _ ho hl]; simp [hne]
    · simp [errorsIs]
    · simp [errorsIs]
    · rw [hc, createPIDFile_flockErr env w1 _ ho hl]; exact hcont

theorem CreateOrUpdatePIDFile_lock_failure_witness :
    Event.flock ∈ (CreateOrUpdatePIDFile envLockHeld ⟨some [], []⟩).2.trace ∧
      (CreateOrUpdatePIDFile envLockHeld ⟨some [], []⟩).1 = some .ErrLockFailed :=
  ⟨by decide, ((CreateOrUpdatePIDFile_lock_failure envLockHeld (some []) (by decide)).1 rfl).1⟩

theorem CreateOrUpdatePIDFile_parsed (env : Env) (w : World) (c : List Char) (pid : Int)
    (hm : w.marker = some c) (hr : env.readFileErr = none) (hp : Atoi c = .ok pid) :
    CreateOrUpdatePIDFile env w =
      match isProcessActive env pid (w.log .readFile) with
      | ((_, some err), w2) => (some (.wrapf .checkingActivity err), w2)
      | ((true, none), w2) => (some .ErrPIDExists, w2)
      | ((false, none), w2) => createPIDFile env w2 := by
  unfold CreateOrUpdatePIDFile
  rw [readPIDValue_present env w c hm hr, hp]

theorem CreateOrUpdatePIDFile_unparsed (env : Env) (w : World) (c : List Char)
    (k : NumErrKind) (hm : w.marker = some c) (hr : env.readFileErr = none)
    (hp : Atoi c = .error k) :
    CreateOrUpdatePIDFile env w = createPIDFile env (w.log .readFile) := by
  unfold CreateOrUpdatePIDFile
  rw [readPIDValue_present env w c hm hr, hp]

theorem CreateOrUpdatePIDFile_active (env : Env) (w : World) (c : List Char) (pid : Int)
    (hm : w.marker = some c) (hr : env.readFileErr = none) (hp : Atoi c = .ok pid)
    (hpos : 0 < pid) (hf : env.findProcessErr pid = none) (hs : env.kill0 pid = none) :
    (CreateOrUpdatePIDFile env w).1 = some .ErrPIDExists ∧
      (CreateOrUpdatePIDFile env w).2.marker = w.marker := by
  have hmk := isProcessActive_marker env pid (w.log .readFile)
  have hres : (isProcessActive env pid (w.log .readFile)).1 = (true, none) := by
    simp [isProcessActive, processSignal0, not_le.mpr hpos, hf, hs]
  rw [CreateOrUpdatePIDFile_parsed env w c pid hm hr hp]
  rcases ha : isProcessActive env pid (w.log .readFile) with ⟨⟨b, oe⟩, w2⟩
  rw [ha] at hres hmk
  simp only [Prod.mk.injEq] at hres
  obtain ⟨rfl, rfl⟩ := hres
  exact ⟨rfl, hmk⟩

/-- C2: for every marker whose content parses as a positive integer naming a
process that the probe reports alive, `CreateOrUpdatePIDFile` returns
`ErrPIDExists` (so `errors.Is(err, ErrPIDExists)` holds) and the marker is as
before; in particular this is so when the marker holds the decimal string of
the caller's own process id and the caller is probed alive. -/
theorem CreateOrUpdatePIDFile_owner_active (env : Env) (w : World)
    (hr : env.readFileErr = none) :
    (∀ c pid, w.marker = some c → Atoi c = .ok pid → 0 < pid →
        env.findProcessErr pid = none → env.kill0 pid = none →
        (CreateOrUpdatePIDFile env w).1 = some .ErrPIDExists ∧
        (∀ err, (CreateOrUpdatePIDFile env w).1 = some err →
          errorsIs err .ErrPIDExists = true) ∧
        (CreateOrUpdatePIDFile env w).2.marker = w.marker) ∧
      (w.marker = some (Itoa env.getpid) → 0 < env.getpid → env.getpid < 2 ^ 63 →
        env.findProcessErr env.getpid = none → env.kill0 env.getpid = none →
        (CreateOrUpdatePIDFile env w).1 = some .ErrPIDExists ∧
        (CreateOrUpdatePIDFile env w).2.marker = w.marker) := by
  constructor
  · intro c pid hm hp hpos hf hs
    obtain ⟨h1, h2⟩ := CreateOrUpdatePIDFile_active env w c pid hm hr hp hpos hf hs
    refine ⟨h1, ?_, h2⟩
    intro err herr
    rw [h1] at herr
    simp only [Option.some.injEq] at herr
    subst herr
    rfl
  · intro hm hpos h63 hf hs
    exact CreateOrUpdatePIDFile_active env w _ _ hm hr
      (Atoi_Itoa env.getpid (le_of_lt hpos) h63) hpos hf hs

theorem CreateOrUpdatePIDFile_owner_active_witness :
    envOk.readFileErr = none ∧ Atoi "4242".toList = .ok 4242 ∧
      (CreateOrUpdatePIDFile envOk ⟨some "4242".toList, []⟩).1 = some .ErrPIDExists ∧
      (CreateOrUpdatePIDFile envOk ⟨some "4242".toList, []⟩).2.marker = some "4242".toList :=
  ⟨rfl, by decide,
    ((CreateOrUpdatePIDFile_owner_active envOk ⟨some "4242".toList, []⟩ rfl).1
      "4242".toList 4242 rfl (by decide) (by decide) rfl rfl).1,
    ((CreateOrUpdatePIDFile_owner_active envOk ⟨some "4242".toList, []⟩ rfl).1
      "4242".toList 4242 rfl (by decide) (by decide) rfl rfl).2.2⟩

/-- C3: the code on a marker that parses.  Whatever `kill` answers, the call
returns a non-nil error and leaves the marker as it was: a marker holding an
integer is never overwritten.  In particular, for a positive identifier with no
such process (`kill` answers `ESRCH`) the call returns `error checking process
activity: error signaling process: os: process already finished` after the read
and the probe, without opening the file. -/
theorem CreateOrUpdatePIDFile_stale_marker_rejected (env : Env) (w : World)
    (c : List Char) (pid : Int) (hm : w.marker = some c) (hr : env.readFileErr = none)
    (hp : Atoi c = .ok pid) (hf : env.findProcessErr pid = none) :
    ((CreateOrUpdatePIDFile env w).1 ≠ none ∧
        (CreateOrUpdatePIDFile env w).2.marker = w.marker) ∧
      (0 < pid → env.kill0 pid = some ESRCH →
        CreateOrUpdatePIDFile env w =
          (some (.wrapf .checkingActivity (.wrapf .signalingProcess .ErrProcessDone)),
            ⟨w.marker, w.trace ++ [.readFile, .findProcess pid, .signal0 pid]⟩)) := by
  have hmk := isProcessActive_marker env pid (w.log .readFile)
  rw [CreateOrUpdatePIDFile_parsed env w c pid hm hr hp]
  constructor
  · have hne : (isProcessActive env pid (w.log .readFile)).1 ≠ (false, none) := by
      unfold isProcessActive processSignal0
      by_cases hpos : pid ≤ 0
      · simp [hpos]
      · rcases hk : env.kill0 pid with _ | e
        · simp [hpos, hf]
        · by_cases he : e = ESRCH <;> simp [hpos, hf, he]
    rcases ha : isProcessActive env pid (w.log .readFile) with ⟨⟨b, _ | aerr⟩, w2⟩
    · rw [ha] at hne hmk
      cases b
      · exact absurd rfl hne
      · exact ⟨by simp, hmk⟩
    · rw [ha] at hmk
      cases b <;> exact ⟨by simp, hmk⟩
  · intro hpos hk
    simp [isProcessActive, processSignal0, not_le.mpr hpos, hf, hk, World.log]

theorem CreateOrUpdatePIDFile_stale_marker_rejected_witness :
    Atoi "999999999".toList = .ok 999999999 ∧ envOk.kill0 999999999 = some ESRCH ∧
      CreateOrUpdatePIDFile envOk ⟨some "999999999".toList, []⟩ =
        (some (.wrapf .checkingActivity (.wrapf .signalingProcess .ErrProcessDone)),
          ⟨some "999999999".toList,
            [.readFile, .findProcess 999999999, .signal0 999999999]⟩) :=
  ⟨by decide, by decide,
    (CreateOrUpdatePIDFile_stale_marker_rejected envOk ⟨some "999999999".toList, []⟩
      "999999999".toList 999999999 rfl rfl (by decide) rfl).2 (by decide) (by decide)⟩

/-- C7: for every marker whose content parses to an integer for which
`isProcessActive` returns a non-nil error, `CreateOrUpdatePIDFile` returns
`error checking process activity` wrapping that error, which is neither
`ErrPIDExists` nor `ErrLockFailed`; the marker is as before and no operation of
the call opens, locks, writes or closes the file. -/
theorem CreateOrUpdatePIDFile_probe_error (env : Env) (w : World) (c : List Char)
    (pid : Int) (err : GoError)
    (hm : w.marker = some c) (hr : env.readFileErr = none) (hp : Atoi c = .ok pid)
    (he : (isProcessActive env pid (w.log .readFile)).1.2 = some err) :
    (CreateOrUpdatePIDFile env w).1 = some (.wrapf .checkingActivity err) ∧
      errorsIs (.wrapf .checkingActivity err) err = true ∧
      GoError.wrapf .checkingActivity err ≠ .ErrPIDExists ∧
      GoError.wrapf .checkingActivity err ≠ .ErrLockFailed ∧
      (CreateOrUpdatePIDFile env w).2.marker = w.marker ∧
      ∃ evs, (CreateOrUpdatePIDFile env w).2.trace = w.trace ++ evs ∧
        ∀ ev ∈ evs, ev.touchesFile = false := by
  obtain ⟨evs, htr, hevs⟩ := isProcessActive_trace env pid (w.log .readFile)
  have hmk := isProcessActive_marker env pid (w.log .readFile)
  rw [CreateOrUpdatePIDFile_parsed env w c pid hm hr hp]
  rcases ha : isProcessActive env pid (w.log .readFile) with ⟨⟨b, oe⟩, w2⟩
  rw [ha] at he hmk htr
  simp only at he hmk htr
  subst he
  have hres : (match ((b, some err), w2) with
      | ((_, some err), w2) => (some (GoError.wrapf .checkingActivity err), w2)
      | ((true, none), w2) => (some GoError.ErrPIDExists, w2)
      | ((false, none), w2) => createPIDFile env w2) =
      (some (GoError.wrapf .checkingActivity err), w2) := by
    cases b <;> rfl
  rw [hres]
  refine ⟨rfl, by simp [errorsIs, errorsIs_self], by simp, by simp, hmk, ?_⟩
  refine ⟨.readFile :: evs, ?_, ?_⟩
  · simp only [htr, World.log, List.append_assoc, List.singleton_append]
  · intro ev hev
    rcases List.mem_cons.mp hev with h | h
    · subst h; rfl
    · rcases hevs ev h with h | h <;> subst h <;> rfl

theorem CreateOrUpdatePIDFile_probe_error_witness :
    Atoi "0".toList = .ok 0 ∧
      (CreateOrUpdatePIDFile envOk ⟨some "0".toList, []⟩).1 =
        some (.wrapf .checkingActivity .invalidProcessID) ∧
      (CreateOrUpdatePIDFile envOk ⟨some "0".toList, []⟩).2.marker = some "0".toList :=
  ⟨by decide,
    (CreateOrUpdatePIDFile_probe_error envOk ⟨some "0".toList, []⟩ "0".toList 0
      .invalidProcessID rfl rfl (by decide) (by decide)).1,
    (CreateOrUpdatePIDFile_probe_error envOk ⟨some "0".toList, []⟩ "0".toList 0
      .invalidProcessID rfl rfl (by decide) (by decide)).2.2.2.2.1⟩

/-- C4, counterexample: the empty marker does not parse, yet the call returns
nil and the marker holds `4242` afterwards. -/
theorem CreateOrUpdatePIDFile_unparsable_overwritten :
    Atoi [] = .error .syntaxErr ∧
      (CreateOrUpdatePIDFile envOk ⟨some [], []⟩).1 = none ∧
      (CreateOrUpdatePIDFile envOk ⟨some [], []⟩).2.marker = some "4242".toList ∧
      Atoi "abc".toList = .error .syntaxErr ∧
      (CreateOrUpdatePIDFile envOk ⟨some "abc".toList, []⟩).1 = none ∧
      (CreateOrUpdatePIDFile envOk ⟨some "abc".toList, []⟩).2.marker = some "4242".toList := by
  decide

/-- C4, amended: for every existing marker whose content does not parse,
`CreateOrUpdatePIDFile` skips the probe and returns what `createPIDFile`
returns, which is never the parse error; when open, lock and write succeed the
result is nil and the marker holds the caller's id followed by the old bytes
beyond it; when open or lock fails the result is non-nil and the content is as
before. -/
theorem CreateOrUpdatePIDFile_unparsable (env : Env) (w : World) (c : List Char)
    (k : NumErrKind) (hm : w.marker = some c) (hr : env.readFileErr = none)
    (hp : Atoi c = .error k) :
    CreateOrUpdatePIDFile env w = createPIDFile env (w.log .readFile) ∧
      (∀ err, (CreateOrUpdatePIDFile env w).1 = some err →
        errorsIs err (.numError k) = false ∧
        errorsIs err (.wrapf .parsingValue (.numError k)) = false) ∧
      (env.openFileErr = none → env.flockErr = none → env.write = .ok →
        (CreateOrUpdatePIDFile env w).1 = none ∧
        (CreateOrUpdatePIDFile env w).2.content = writeAt0 c (Itoa env.getpid)) ∧
      (env.openFileErr ≠ none ∨ env.flockErr ≠ none →
        (CreateOrUpdatePIDFile env w).1 ≠ none ∧
        (CreateOrUpdatePIDFile env w).2.content = c) := by
  have hc := CreateOrUpdatePIDFile_unparsed env w c k hm hr hp
  have hcont : (w.log .readFile).content = c := by simp [World.log, World.content, hm]
  refine ⟨hc, ?_, ?_, ?_⟩
  · intro err herr
    rw [hc] at herr
    rcases ho : env.openFileErr with _ | e1
    · rcases hl : env.flockErr with _ | e2
      · rcases hw : env.write with _ | ⟨n, e3⟩
        · rw [createPIDFile_writeOk env _ ho hl hw] at herr; simp at herr
        · rw [createPIDFile_writeFail env _ n e3 ho hl hw] at herr
          simp only [Option.some.injEq] at herr
          subst herr
          simp [errorsIs]
      · rw [createPIDFile_flockErr env _ e2 ho hl] at herr
        simp only [Option.some.injEq] at herr
        subst herr
        split <;> simp [errorsIs]
    · rw [createPIDFile_openErr env _ e1 ho] at herr
      simp only [Option.some.injEq] at herr
      subst herr
      simp [errorsIs]
  · intro ho hl hw
    rw [hc, createPIDFile_writeOk env _ ho hl hw, hcont]
    exact ⟨rfl, rfl⟩
  · intro hfail
    rw [hc]
    rcases ho : env.openFileErr with _ | e1
    · rcases hl : env.flockErr with _ | e2
      · rcases hfail with h | h
        · exact absurd ho h
        · exact absurd hl h
      · rw [createPIDFile_flockErr env _ e2 ho hl, hcont]
        exact ⟨by simp, rfl⟩
    · rw [createPIDFile_openErr env _ e1 ho]
      exact ⟨by simp, hcont⟩

theorem CreateOrUpdatePIDFile_unparsable_witness :
    Atoi "12a".toList = .error .syntaxErr ∧
      (CreateOrUpdatePIDFile envOk ⟨some "12a".toList, []⟩).1 = none ∧
      (CreateOrUpdatePIDFile envOk ⟨some "12a".toList, []⟩).2.content =
        writeAt0 "12a".toList (Itoa 4242) :=
  ⟨by decide,
    ((CreateOrUpdatePIDFile_unparsable envOk ⟨some "12a".toList, []⟩ "12a".toList
      .syntaxErr rfl rfl (by decide)).2.2.1 rfl rfl rfl).1,
    ((CreateOrUpdatePIDFile_unparsable envOk ⟨some "12a".toList, []⟩ "12a".toList
      .syntaxErr rfl rfl (by decide)).2.2.1 rfl rfl rfl).2⟩

/-! ## The race of two processes -/

theorem Proc.other_ne (i : Proc) : i.other ≠ i := by cases i <;> decide

theorem Proc.ne_other (i : Proc) : i ≠ i.other := by cases i <;> decide

theorem Proc.other_other (i : Proc) : i.other.other = i := by cases i <;> rfl

theorem Proc.eq_or_eq_other (i j : Proc) : j = i ∨ j = i.other := by
  cases i <;> cases j <;> simp [Proc.other]

theorem Pc.wins_of_wrote {pc : Pc} (h : pc.wrote = true) : pc.wins = true := by
  cases pc with
  | closing res => cases res <;> simp_all [Pc.wrote, Pc.wins]
  | done res => cases res <;> simp_all [Pc.wrote, Pc.wins]
  | _ => simp [Pc.wrote] at h

theorem step_pc_of_ne (r : Race) (i j : Proc) (s : Shared) (h : j ≠ i) :
    (step r i s).pc j = s.pc j := by
  unfold step
  split
  · split <;> simp [Shared.setPc, Shared.record, h]
  · split <;> simp [Shared.setPc, Shared.record, h]
  · simp [Shared.setPc, Shared.record, h]
  · split <;> simp [Shared.setPc, Shared.record, h]
  · simp [Shared.setPc, Shared.record, h]
  · simp [Shared.setPc, Shared.record, h]
  · rfl

theorem step_remaining (r : Race) (i : Proc) (s : Shared) :
    ((step r i s).pc i).remaining ≤ (s.pc i).remaining - 1 := by
  unfold step
  split
  · next h => split <;> simp [Shared.setPc, Shared.record, h, Pc.remaining]
  · next h => split <;> simp [Shared.setPc, Shared.record, h, Pc.remaining]
  · next h => simp [Shared.setPc, Shared.record, h, Pc.remaining]
  · next h => split <;> simp [Shared.setPc, Shared.record, h, Pc.remaining]
  · next h => simp [Shared.setPc, Shared.record, h, Pc.remaining]
  · next h => simp [Shared.setPc, Shared.record, h, Pc.remaining]
  · next h => simp [h, Pc.remaining]

theorem run_remaining (r : Race) (i : Proc) (sched : List Proc) :
    ∀ s : Shared, ((run r sched s).pc i).remaining ≤ (s.pc i).remaining - sched.count i := by
  induction sched with
  | nil => intro s; simp [run]
  | cons j rest ih =>
      intro s
      have h := ih (step r j s)
      by_cases hj : j = i
      · subst hj
        have h1 := step_remaining r j s
        simp only [run, List.count_cons_self]
        omega
      · have h1 := step_pc_of_ne r j i s (Ne.symm hj)
        simp only [run, List.count_cons_of_ne (Ne.symm hj)]
        rw [h1] at h
        exact h

theorem Pc.done_of_remaining {pc : Pc} (h : pc.remaining = 0) : ∃ res, pc = .done res := by
  cases pc <;> simp [Pc.remaining] at h
  exact ⟨_, rfl⟩

/-- Every process that gets six steps has returned. -/
theorem run_done (r : Race) (i : Proc) (sched : List Proc) (s : Shared)
    (h : 6 ≤ sched.count i) : ∃ res, (run r sched s).pc i = .done res := by
  apply Pc.done_of_remaining
  have h1 := run_remaining r i sched s
  have h2 : (s.pc i).remaining ≤ 6 := by cases s.pc i <;> simp [Pc.remaining]
  omega

theorem step_start_empty (r : Race) (i : Proc) (s : Shared) (hpc : s.pc i = .start)
    (hm : s.marker = some []) : step r i s = (s.record i .read).setPc i .opening := by
  simp [step, hpc, readPIDValue, osReadFile, Race.env, hm, Atoi, ParseInt]

theorem step_start_owned (r : Race) (i : Proc) (s : Shared) (p : Int) (hpc : s.pc i = .start)
    (hm : s.marker = some (Itoa p)) (h0 : 0 ≤ p) (h63 : p < 2 ^ 63) :
    step r i s = (s.record i .read).setPc i (.probing p) := by
  have hp := Atoi_Itoa p h0 h63
  simp [step, hpc, readPIDValue, osReadFile, Race.env, hm, hp]

theorem step_probing_alive (r : Race) (i : Proc) (s : Shared) (p : Int)
    (hpc : s.pc i = .probing p) (hp : 0 < p) (ha : r.kill0 p = none) :
    step r i s = (s.record i .probe).setPc i (.done (some .ErrPIDExists)) := by
  simp [step, hpc, isProcessActive, processSignal0, Race.env, ha, not_le.mpr hp]

theorem Proc.forall_iff (i : Proc) (P : Proc → Prop) : (∀ j, P j) ↔ P i ∧ P i.other := by
  constructor
  · intro h; exact ⟨h i, h i.other⟩
  · rintro ⟨h1, h2⟩ j
    rcases Proc.eq_or_eq_other i j with rfl | rfl
    · exact h1
    · exact h2

theorem precedes_snoc (a b e : Proc × Op) (l : List (Proc × Op)) :
    precedes a b (l ++ [e]) = true ↔ precedes a b l = true ∨ (a ∈ l ∧ e = b) := by
  induction l with
  | nil => simp [precedes]
  | cons x l ih =>
      have h1 : precedes a b (x :: l ++ [e]) =
          ((decide (x = a) && decide (b ∈ l ++ [e])) || precedes a b (l ++ [e])) := rfl
      have h2 : precedes a b (x :: l) =
          ((decide (x = a) && decide (b ∈ l)) || precedes a b l) := rfl
      rw [h1, h2]
      simp only [Bool.or_eq_true, Bool.and_eq_true, decide_eq_true_eq, ih, List.mem_append,
        List.mem_singleton, List.mem_cons, List.not_mem_nil, or_false]
      constructor
      · rintro (⟨hx, hb | hb⟩ | hp | ⟨ha, he⟩)
        · exact Or.inl (Or.inl ⟨hx, hb⟩)
        · exact Or.inr ⟨Or.inl hx.symm, hb.symm⟩
        · exact Or.inl (Or.inr hp)
        · exact Or.inr ⟨Or.inr ha, he⟩
      · rintro ((⟨hx, hb⟩ | hp) | ⟨ha | ha, he⟩)
        · exact Or.inl ⟨hx, Or.inl hb⟩
        · exact Or.inr (Or.inl hp)
        · exact Or.inl ⟨ha.symm, Or.inr he.symm⟩
        · exact Or.inr (Or.inr ⟨ha, he⟩)

theorem raceInv_iff (r : Race) (s : Shared) (i : Proc) :
    RaceInv r s ↔
      (∃ c, s.marker = some c) ∧
      ((s.lock = some i ↔ (s.pc i = .writing ∨ s.pc i = .closing none)) ∧
        (s.lock = some i.other ↔
          (s.pc i.other = .writing ∨ s.pc i.other = .closing none))) ∧
      ((s.pc i).wrote = false → (s.pc i.other).wrote = false → s.marker = some []) ∧
      (((s.pc i).wrote = true → (s.pc i.other).wrote = false →
          s.marker = some (Itoa (r.pid i))) ∧
        ((s.pc i.other).wrote = true → (s.pc i).wrote = false →
          s.marker = some (Itoa (r.pid i.other)))) ∧
      ((∀ pid, s.pc i = .probing pid →
          pid = r.pid i.other ∧ (s.pc i.other).wrote = true) ∧
        (∀ pid, s.pc i.other = .probing pid →
          pid = r.pid i ∧ (s.pc i).wrote = true)) ∧
      ((∀ e, (s.pc i = .done (some e) ∨ s.pc i = .closing (some e)) →
          (e = .ErrPIDExists ∨ e = .ErrLockFailed) ∧ (s.pc i.other).wins = true) ∧
        (∀ e, (s.pc i.other = .done (some e) ∨ s.pc i.other = .closing (some e)) →
          (e = .ErrPIDExists ∨ e = .ErrLockFailed) ∧ (s.pc i).wins = true)) ∧
      (((i, Op.close) ∈ s.log → ∃ res, s.pc i = .done res) ∧
        ((i.other, Op.close) ∈ s.log → ∃ res, s.pc i.other = .done res)) ∧
      ((s.pc i = .done none → (i, Op.close) ∈ s.log) ∧
        (s.pc i.other = .done none → (i.other, Op.close) ∈ s.log)) ∧
      ((precedes (i, .close) (i.other, .lock) s.log = true →
          (s.pc i).wins = true ∧ (s.pc i.other).wins = true) ∧
        (precedes (i.other, .close) (i, .lock) s.log = true →
          (s.pc i.other).wins = true ∧ (s.pc i).wins = true)) ∧
      ((s.pc i).wins = true → (s.pc i.other).wins = true →
        precedes (i, .close) (i.other, .lock) s.log = true ∨
          precedes (i.other, .close) (i, .lock) s.log = true) := by
  constructor
  · intro h
    refine ⟨h.marker_some, ⟨h.lock_iff i, h.lock_iff i.other⟩, ?_, ⟨h.single i, ?_⟩,
      ⟨h.probing i, ?_⟩, ⟨h.failed i, ?_⟩, ⟨h.closed_done i, h.closed_done i.other⟩,
      ⟨h.done_closed i, h.done_closed i.other⟩, ⟨h.handover_wins i, ?_⟩, ?_⟩
    · intro h1 h2
      exact h.fresh ((Proc.forall_iff i _).mpr ⟨h1, h2⟩)
    · have := h.single i.other
      rwa [Proc.other_other] at this
    · have := h.probing i.other
      rwa [Proc.other_other] at this
    · have := h.failed i.other
      rwa [Proc.other_other] at this
    · have := h.handover_wins i.other
      rwa [Shared.handover, Proc.other_other] at this
    · intro h1 h2
      obtain ⟨k, hk⟩ := h.wins_handover ((Proc.forall_iff i _).mpr ⟨h1, h2⟩)
      rcases Proc.eq_or_eq_other i k with rfl | rfl
      · exact Or.inl hk
      · right
        rwa [Shared.handover, Proc.other_other] at hk
  · rintro ⟨h1, ⟨h2, h2'⟩, h3, ⟨h4, h4'⟩, ⟨h5, h5'⟩, ⟨h6, h6'⟩, ⟨h7, h7'⟩, ⟨h8, h8'⟩,
      ⟨h9, h9'⟩, h10⟩
    refine ⟨h1, ?_, ?_, ?_, ?_, ?_, ?_, ?_, ?_, ?_⟩
    · exact (Proc.forall_iff i _).mpr ⟨h2, h2'⟩
    · intro h
      exact h3 (h i) (h i.other)
    · refine (Proc.forall_iff i _).mpr ⟨h4, ?_⟩
      rwa [Proc.other_other]
    · refine (Proc.forall_iff i _).mpr ⟨h5, ?_⟩
      rwa [Proc.other_other]
    · refine (Proc.forall_iff i _).mpr ⟨h6, ?_⟩
      rwa [Proc.other_other]
    · exact (Proc.forall_iff i _).mpr ⟨h7, h7'⟩
    · exact (Proc.forall_iff i _).mpr ⟨h8, h8'⟩
    · refine (Proc.forall_iff i _).mpr ⟨h9, ?_⟩
      rwa [Shared.handover, Proc.other_other]
    · intro h
      rcases h10 (h i) (h i.other) with hk | hk
      · exact ⟨i, hk⟩
      · refine ⟨i.other, ?_⟩
        rwa [Shared.handover, Proc.other_other]

set_option maxHeartbeats 1600000 in
theorem step_inv (r : Race) (hl : r.Live) (i : Proc) (s : Shared) (h : RaceInv r s) :
    RaceInv r (step r i s) := by
  rw [raceInv_iff r s i] at h
  obtain ⟨⟨c, hc⟩, ⟨hL, hL'⟩, hF, ⟨hS, hS'⟩, ⟨hP, hP'⟩, ⟨hE, hE'⟩, ⟨hC, hC'⟩, ⟨hD, hD'⟩,
    ⟨hH, hH'⟩, hW⟩ := h
  rw [raceInv_iff r _ i]
  have hne := Proc.other_ne i
  have hne' := Proc.ne_other i
  rcases hpc : s.pc i with _ | p | _ | _ | _ | res | res
  · -- read the marker
    cases hw : (s.pc i.other).wrote
    · have hm : s.marker = some [] := hF (by simp [hpc, Pc.wrote]) hw
      rw [step_start_empty r i s hpc hm]
      rcases hpj : s.pc i.other with _ | q | _ | _ | _ | (_ | e') | (_ | e') <;>
        simp_all [Shared.setPc, Shared.record, Pc.wrote, Pc.wins, precedes_snoc]
    · have hm : s.marker = some (Itoa (r.pid i.other)) := hS' hw (by simp [hpc, Pc.wrote])
      rw [step_start_owned r i s _ hpc hm (le_of_lt (hl.pos _)) (hl.bound _)]
      rcases hpj : s.pc i.other with _ | q | _ | _ | _ | (_ | e') | (_ | e') <;>
        simp_all [Shared.setPc, Shared.record, Pc.wrote, Pc.wins, precedes_snoc]
  · -- probe the owner read from the marker
    obtain ⟨hp, hw⟩ := hP p hpc
    have hwin := Pc.wins_of_wrote hw
    subst hp
    rw [step_probing_alive r i s _ hpc (hl.pos _) (hl.alive _)]
    rcases hpj : s.pc i.other with _ | q | _ | _ | _ | (_ | e') | (_ | e') <;>
      simp_all [Shared.setPc, Shared.record, Pc.wrote, Pc.wins, precedes_snoc]
  · -- open (or create) the file
    have hs : step r i s =
        (Shared.record { s with marker := some (s.marker.getD []) } i .open).setPc
          i .locking := by
      simp [step, hpc]
    rw [hs]
    rcases hpj : s.pc i.other with _ | q | _ | _ | _ | (_ | e') | (_ | e') <;>
      simp_all [Shared.setPc, Shared.record, Pc.wrote, Pc.wins, precedes_snoc]
  · -- try the lock
    rcases hlk : s.lock with _ | k
    · have hs : step r i s =
          (Shared.record { s with lock := some i } i .lock).setPc i .writing := by
        simp [step, hpc, hlk]
      rw [hs]
      rcases hpj : s.pc i.other with _ | q | _ | _ | _ | (_ | e') | (_ | e') <;>
        simp_all [Shared.setPc, Shared.record, Pc.wrote, Pc.wins, precedes_snoc]
    · have hs : step r i s = (s.record i .lock).setPc i (.closing (some .ErrLockFailed)) := by
        simp [step, hpc, hlk]
      have hk : k = i.other := by
        rcases Proc.eq_or_eq_other i k with rfl | rfl
        · rw [hlk, hpc] at hL; simp at hL
        · rfl
      subst hk
      have hwin : (s.pc i.other).wins = true := by
        rcases hL'.mp hlk with h | h <;> simp [h, Pc.wins]
      rw [hs]
      rcases hpj : s.pc i.other with _ | q | _ | _ | _ | (_ | e') | (_ | e') <;>
        simp_all [Shared.setPc, Shared.record, Pc.wrote, Pc.wins, precedes_snoc]
  · -- write the id
    have hs : step r i s = (Shared.record
        { s with marker := some (writeAt0 (s.marker.getD []) (Itoa (r.pid i))) }
        i .write).setPc i (.closing none) := by
      simp [step, hpc]
    have hlk : s.lock = some i := hL.mpr (Or.inl hpc)
    rw [hs]
    cases hw : (s.pc i.other).wrote
    · have hm : s.marker = some [] := hF (by simp [hpc, Pc.wrote]) hw
      rcases hpj : s.pc i.other with _ | q | _ | _ | _ | (_ | e') | (_ | e') <;>
        simp_all [Shared.setPc, Shared.record, Pc.wrote, Pc.wins, writeAt0, precedes_snoc]
    · rcases hpj : s.pc i.other with _ | q | _ | _ | _ | (_ | e') | (_ | e') <;>
   simp_all [Shared.setPc, Shared.record, Pc.wrote, Pc.wins, writeAt0, precedes_snoc]
  · -- close the file
    have hs : step r i s =
        (Shared.record { s with lock := if s.lock = some i then none else s.lock }
          i .close).setPc i (.done res) := by
      simp [step, hpc]
    rw [hs]
    rcases res with _ | e
    · have hlk : s.lock = some i := hL.mpr (Or.inr hpc)
      rcases hpj : s.pc i.other with _ | q | _ | _ | _ | (_ | e') | (_ | e') <;>
        simp_all [Shared.setPc, Shared.record, Pc.wrote, Pc.wins, precedes_snoc]
    · have hlk : s.lock ≠ some i := by
        intro hh
        rw [hh, hpc] at hL
        simp at hL
      rcases hpj : s.pc i.other with _ | q | _ | _ | _ | (_ | e') | (_ | e') <;>
        simp_all [Shared.setPc, Shared.record, Pc.wrote, Pc.wins, precedes_snoc]
  · -- returned already
    have hs : step r i s = s := by simp [step, hpc]
    rw [hs]
    exact ⟨⟨c, hc⟩, ⟨hL, hL'⟩, hF, ⟨hS, hS'⟩, ⟨hP, hP'⟩, ⟨hE, hE'⟩, ⟨hC, hC'⟩, ⟨hD, hD'⟩,
      ⟨hH, hH'⟩, hW⟩

theorem init_inv (r : Race) : RaceInv r (Shared.init (some [])) := by
  refine ⟨⟨[], rfl⟩, ?_, ?_, ?_, ?_, ?_, ?_, ?_, ?_, ?_⟩
  · simp [Shared.init]
  · simp [Shared.init, Pc.wrote]
  · simp [Shared.init, Pc.wrote]
  · simp [Shared.init]
  · simp [Shared.init]
  · simp [Shared.init]
  · simp [Shared.init]
  · simp [Shared.init, Shared.handover, precedes]
  · intro h
    have := h .A
    simp [Shared.init, Pc.wins] at this

theorem run_inv (r : Race) (hl : r.Live) (sched : List Proc) :
    ∀ s, RaceInv r s → RaceInv r (run r sched s) := by
  induction sched with
  | nil => intro s h; exact h
  | cons i rest ih => intro s h; exact ih _ (step_inv r hl i s h)

theorem raceOk_live : raceOk.Live := by
  refine ⟨?_, ?_, ?_⟩ <;> intro i <;> cases i <;> decide

/-- A process stepping alone through its call ends as `CreateOrUpdatePIDFile`
does in the environment where every system call succeeds. -/
theorem run_solo (r : Race) (i : Proc) (m : Option (List Char)) :
    (run r [i, i, i, i, i, i] (Shared.init m)).pc i =
        .done (CreateOrUpdatePIDFile (r.env i) ⟨m, []⟩).1 ∧
      (run r [i, i, i, i, i, i] (Shared.init m)).marker =
        (CreateOrUpdatePIDFile (r.env i) ⟨m, []⟩).2.marker := by
  have hw := readPIDValue_world (r.env i) ⟨m, []⟩
  rcases hr : readPIDValue (r.env i) ⟨m, []⟩ with ⟨⟨pid, _ | rerr⟩, w0⟩
  · rw [hr] at hw
    simp only at hw
    subst hw
    have hres := isProcessActive_result (r.env i) pid ⟨m, []⟩ (World.log ⟨m, []⟩ .readFile)
    have hmk := isProcessActive_marker (r.env i) pid (World.log ⟨m, []⟩ .readFile)
    rcases ha : isProcessActive (r.env i) pid (World.log ⟨m, []⟩ .readFile) with
      ⟨⟨b, _ | aerr⟩, w2⟩
    · rw [ha] at hres hmk
      simp only [World.log] at hmk
      cases b
      · have hcre := createPIDFile_writeOk (r.env i) w2 rfl rfl rfl
        simp [run, step, Shared.init, Shared.setPc, Shared.record, hr, hres,
          CreateOrUpdatePIDFile, ha, hcre, World.content, hmk]
        rfl
      · simp [run, step, Shared.init, Shared.setPc, Shared.record, hr, hres,
          CreateOrUpdatePIDFile, ha, hmk]
    · rw [ha] at hres hmk
      simp only [World.log] at hmk
      cases b <;>
        simp [run, step, Shared.init, Shared.setPc, Shared.record, hr, hres,
          CreateOrUpdatePIDFile, ha, hmk]
  · rw [hr] at hw
    simp only at hw
    subst hw
    have hcre := createPIDFile_writeOk (r.env i) (World.log ⟨m, []⟩ .readFile) rfl rfl rfl
    simp only [World.log, World.content, List.nil_append] at hcre
    simp [run, step, Shared.init, Shared.setPc, Shared.record, hr, CreateOrUpdatePIDFile, hcre,
      World.log]
    rfl

/-- C5, counterexample: from an existing empty marker the schedule in which
both processes read before either writes, and the first closes the file before
the second tries the lock, ends with both calls returning nil; from a path with
no file both calls return the error `invalid process ID`. -/
theorem race_both_succeed_and_both_fail :
    ((run raceOk [.A, .B, .A, .A, .A, .A, .B, .B, .B, .B] (Shared.init (some []))).pc .A =
        .done none ∧
      (run raceOk [.A, .B, .A, .A, .A, .A, .B, .B, .B, .B] (Shared.init (some []))).pc .B =
        .done none) ∧
    ((run raceOk [.A, .B, .A, .B] (Shared.init none)).pc .A =
        .done (some (.wrapf .checkingActivity .invalidProcessID)) ∧
      (run raceOk [.A, .B, .A, .B] (Shared.init none)).pc .B =
        .done (some (.wrapf .checkingActivity .invalidProcessID))) := by
  decide

/-- C5, amended: two live processes each call `CreateOrUpdatePIDFile` once on
the same existing empty marker, with reading, opening and writing succeeding.
For every interleaving of their steps: once each process has had its six steps
both calls have returned; and whenever both have returned, each result is nil,
`ErrLockFailed` or `ErrPIDExists`, at least one is nil (the two calls never both
fail), and both are nil if and only if one process closed the file before the
other attempted the lock; in every other interleaving exactly one call returns
nil. -/
theorem race_on_empty_marker (r : Race) (hl : r.Live) (sched : List Proc) :
    (6 ≤ sched.count .A → 6 ≤ sched.count .B →
      ∃ ra rb, (run r sched (Shared.init (some []))).pc .A = .done ra ∧
        (run r sched (Shared.init (some []))).pc .B = .done rb) ∧
    (∀ ra rb, (run r sched (Shared.init (some []))).pc .A = .done ra →
      (run r sched (Shared.init (some []))).pc .B = .done rb →
      (ra = none ∨ ra = some .ErrLockFailed ∨ ra = some .ErrPIDExists) ∧
      (rb = none ∨ rb = some .ErrLockFailed ∨ rb = some .ErrPIDExists) ∧
      (ra = none ∨ rb = none) ∧
      ((ra = none ∧ rb = none) ↔
        ((run r sched (Shared.init (some []))).handover .A = true ∨
          (run r sched (Shared.init (some []))).handover .B = true)) ∧
      ((run r sched (Shared.init (some []))).handover .A = false →
        (run r sched (Shared.init (some []))).handover .B = false →
        (ra = none ∧ rb ≠ none) ∨ (ra ≠ none ∧ rb = none))) := by
  constructor
  · intro hA hB
    obtain ⟨ra, hra⟩ := run_done r .A sched (Shared.init (some [])) hA
    obtain ⟨rb, hrb⟩ := run_done r .B sched (Shared.init (some [])) hB
    exact ⟨ra, rb, hra, hrb⟩
  · intro ra rb hra hrb
    have hinv := run_inv r hl sched _ (init_inv r)
    have hfa := hinv.failed .A
    have hfb := hinv.failed .B
    have hha := hinv.handover_wins .A
    have hhb := hinv.handover_wins .B
    have hwh := hinv.wins_handover
    simp only [Proc.other, hra, hrb] at hfa hfb hha hhb
    have hone : ra = none ∨ rb = none := by
      rcases ra with _ | e
      · exact Or.inl rfl
      · have h := (hfa e (Or.inl rfl)).2
        rcases rb with _ | e'
        · exact Or.inr rfl
        · simp [Pc.wins] at h
    have hiff : (ra = none ∧ rb = none) ↔
        ((run r sched (Shared.init (some []))).handover .A = true ∨
          (run r sched (Shared.init (some []))).handover .B = true) := by
      constructor
      · rintro ⟨rfl, rfl⟩
        have hall : ∀ i, ((run r sched (Shared.init (some []))).pc i).wins = true := by
          intro i
          cases i
          · rw [hra]; rfl
          · rw [hrb]; rfl
        obtain ⟨k, hk⟩ := hwh hall
        cases k
        · exact Or.inl hk
        · exact Or.inr hk
      · have hnone : ∀ res : Option GoError, (Pc.done res).wins = true → res = none := by
          intro res h
          rcases res with _ | e
          · rfl
          · simp [Pc.wins] at h
        rintro (h | h)
        · exact ⟨hnone _ (hha h).1, hnone _ (hha h).2⟩
        · exact ⟨hnone _ (hhb h).2, hnone _ (hhb h).1⟩
    refine ⟨?_, ?_, hone, hiff, ?_⟩
    · rcases ra with _ | e
      · exact Or.inl rfl
      · rcases (hfa e (Or.inl rfl)).1 with h | h
        · exact Or.inr (Or.inr (by rw [h]))
        · exact Or.inr (Or.inl (by rw [h]))
    · rcases rb with _ | e
      · exact Or.inl rfl
      · rcases (hfb e (Or.inl rfl)).1 with h | h
        · exact Or.inr (Or.inr (by rw [h]))
        · exact Or.inr (Or.inl (by rw [h]))
    · intro ha hb
      have hnot : ¬ (ra = none ∧ rb = none) := by
        intro hboth
        rcases hiff.mp hboth with h | h
        · rw [ha] at h; cases h
        · rw [hb] at h; cases h
      rcases hone with h | h
      · exact Or.inl ⟨h, fun h' => hnot ⟨h, h'⟩⟩
      · exact Or.inr ⟨fun h' => hnot ⟨h', h⟩, h⟩

theorem race_on_empty_marker_witness :
    raceOk.Live ∧
      (run raceOk [.A, .B, .A, .B, .A, .B, .A, .B, .A, .B, .A, .B]
        (Shared.init (some []))).pc .A = .done none ∧
      (run raceOk [.A, .B, .A, .B, .A, .B, .A, .B, .A, .B, .A, .B]
        (Shared.init (some []))).pc .B = .done (some .ErrLockFailed) ∧
      ((none : Option GoError) = none ∨ some GoError.ErrLockFailed = none) :=
  ⟨raceOk_live, by decide, by decide,
    ((race_on_empty_marker raceOk raceOk_live
      [.A, .B, .A, .B, .A, .B, .A, .B, .A, .B, .A, .B]).2 none (some .ErrLockFailed)
      (by decide) (by decide)).2.2.1⟩

end Pidfile
